import Mathlib

/-!
Shallow embedding of the batch PDF-conversion drivers
(pymu, docling, marker backends and the unified entry point),
together with theorems settling the specification claims.

Filenames are modelled as `String`; directory listings as `List String`;
the content of a written output file as a `String`; a PDF document as the
list of its page texts.  A backend call that can raise is modelled as an
`Except String` value.
-/

namespace PdfToMd

/-! Part: Python string helpers -/

/-- CPython `pathlib.PurePath` stem/suffix split of a filename:
the suffix starts at the last dot, provided that dot is neither the first
nor the last character; otherwise the suffix is empty. -/
def pySplit (name : String) : String × String :=
  let cs := name.toList
  let r := cs.reverse
  let j := r.indexOf '.'
  if 0 < j ∧ j + 1 < cs.length then
    (((r.drop (j + 1)).reverse).asString, ((r.take (j + 1)).reverse).asString)
  else (name, "")

/-- Python `pathlib.Path(name).stem` -/
def pyStem (name : String) : String := (pySplit name).1

/-- Python `pathlib.Path(name).suffix` -/
def pySuffix (name : String) : String := (pySplit name).2

/-- Python `os.path.splitext(name)`: splits at the last dot provided some earlier
character of the name is not a dot (leading dots never start an extension). -/
def splitext (name : String) : String × String :=
  let cs := name.toList
  let r := cs.reverse
  let j := r.indexOf '.'
  if j < cs.length ∧ (r.drop (j + 1)).any (fun c => c ≠ '.') then
    (((r.drop (j + 1)).reverse).asString, ((r.take (j + 1)).reverse).asString)
  else (name, "")

/-- Python `s.lower()` (ASCII lowering, as `str.lower` on ASCII names). -/
def strLower (s : String) : String := (s.toList.map Char.toLower).asString

/-- Python `name.lower().endswith(ext)` for an already-lowercase `ext`. -/
def lowerEndsWith (name ext : String) : Bool :=
  ext.toList.isSuffixOf (name.toList.map Char.toLower)

/-- The pymu scanners match `p.suffix.lower() == ".pdf"`. -/
def pyIsPdf (f : String) : Bool := strLower (pySuffix f) == ".pdf"

/-- The pymu preload scan matches `file.suffix.lower() == ".txt"`. -/
def pyIsTxt (f : String) : Bool := strLower (pySuffix f) == ".txt"

/-- The marker wrapper gathers inputs with `glob.glob("*.pdf")`:
a case-sensitive match on the literal extension, skipping dotfiles. -/
def globPdf (f : String) : Bool :=
  (String.toList ".pdf").isSuffixOf f.toList && !(f.toList.head? == some '.')

/-- Python `sorted(...)` over filenames of one directory (lexicographic). -/
def sortStrings (l : List String) : List String := l.mergeSort

/-- Left-to-right, non-overlapping replacement of a (nonempty) pattern,
fuelled by the length of the string so that recursion is structural. -/
def replaceLoop (pat repl : List Char) : Nat → List Char → List Char
  | _, [] => []
  | 0, s => s
  | fuel + 1, c :: rest =>
      if pat.isPrefixOf (c :: rest) then
        repl ++ replaceLoop pat repl fuel ((c :: rest).drop pat.length)
      else c :: replaceLoop pat repl fuel rest

/-- Python `s.replace(pat, repl)` (for the nonempty patterns used here:
replaces every non-overlapping occurrence, scanning left to right). -/
def pyReplace (s pat repl : String) : String :=
  (replaceLoop pat.toList repl.toList s.toList.length s.toList).asString

/-! Part: Fast-extraction (pymu) backend, `src/pymu/01_pymu_pdf_to_text.py` -/

/-- From the worker: `pages_label = "all" if pages_to_extract < 0 else str(pages_to_extract)` -/
def pagesLabel (p : Int) : String := if p < 0 then "all" else toString p

/-- The completion key computed inside the worker `process_pdf`:
`f"{pdf_path.stem}_pages{pages_label}"`. -/
def workerKey (stem : String) (p : Int) : String := stem ++ "_pages" ++ pagesLabel p

/-- The key used by the batch selector and the preload scan:
`f"{stem}_pages{pages_to_extract}"` (the raw integer, no "all" label). -/
def selectorKey (stem : String) (p : Int) : String := stem ++ "_pages" ++ toString p

/-- The output filename written by the worker: `f"{key}.txt"`. -/
def outFileName (stem : String) (p : Int) : String := workerKey stem p ++ ".txt"

/-- From the worker: `pages = total_pages if pages_to_extract < 0 else min(pages_to_extract, total_pages)` -/
def extractCount (p : Int) (total : Nat) : Nat :=
  if p < 0 then total else min p.toNat total

/-- One extracted block: `f"Page {i + 1}:\n{text}\n"`. -/
def pageBlock (i : Nat) (text : String) : String :=
  "Page " ++ toString (i + 1) ++ ":\n" ++ text ++ "\n"

/-- The per-page blocks accumulated by the extraction loop
`for i in range(pages)` (always `pages ≤ total_pages`). -/
def pageBlocks (doc : List String) (n : Nat) : List String :=
  (doc.take n).enum.map (fun it => pageBlock it.1 it.2)

/-- The blocks written by the main pymu driver for a document and a
pages argument. -/
def extractedBlocks (doc : List String) (p : Int) : List String :=
  pageBlocks doc (extractCount p doc.length)

/-- From the worker: `"\n".join(extracted_text)` — the content of the output file. -/
def extractedText (doc : List String) (p : Int) : String :=
  String.intercalate "\n" (extractedBlocks doc p)

/-- State threaded through a pymu batch: the shared processed-keys cache
and the output directory (filename, content) pairs. -/
structure PState where
  cache : List String
  outputs : List (String × String)
deriving DecidableEq

/-- How one `process_pdf` call ended. -/
inductive TaskResult
  | skippedCache
  | skippedExists
  | converted
  | errored
deriving DecidableEq

/-- The worker `process_pdf(pdf_path, output_dir, pages_to_extract)`:
check the shared cache, then the output-file-exists guard, then open the
document (which may raise), extract, write, and record the key.
`doc` is the result of `fitz.open`: page texts, or the raised message. -/
def processPdf (p : Int) (st : PState) (pdfName : String)
    (doc : Except String (List String)) : PState × TaskResult :=
  let key := workerKey (pyStem pdfName) p
  if key ∈ st.cache then (st, .skippedCache)
  else if outFileName (pyStem pdfName) p ∈ st.outputs.map Prod.fst then
    ({ st with cache := key :: st.cache }, .skippedExists)
  else
    match doc with
    | .error _ => (st, .errored)
    | .ok pages =>
        ({ cache := key :: st.cache,
           outputs := (outFileName (pyStem pdfName) p,
                       extractedText pages p) :: st.outputs }, .converted)

/-- Sequential execution of the scheduled tasks (the worker pool `starmap`
interleaving does not matter for the per-file claims: each task sees some
cache/output state that only ever grows). -/
def runTasks (p : Int) (st : PState) :
    List (String × Except String (List String)) →
      PState × List (String × TaskResult)
  | [] => (st, [])
  | (name, doc) :: rest =>
      let s1 := processPdf p st name doc
      let s2 := runTasks p s1.1 rest
      (s2.1, (name, s1.2) :: s2.2)

/-- The sequence of states a batch run passes through (initial state
included). -/
def runStates (p : Int) (st : PState) :
    List (String × Except String (List String)) → List PState
  | [] => [st]
  | (name, doc) :: rest => st :: runStates p (processPdf p st name doc).1 rest

/-- The preload step of `__main__`: for each `.txt` file in the output
directory, strip the `_pages{args.pages}` suffix from its stem and rebuild
the key `f"{stem}_pages{args.pages}"`. -/
def preloadKeyFromOut (p : Int) (outName : String) : String :=
  let stem := pyReplace (pyStem outName) ("_pages" ++ toString p) ""
  stem ++ "_pages" ++ toString p

/-- The cache built from the output-directory scan in `__main__`. -/
def preloadCache (p : Int) (outNames : List String) : List String :=
  (outNames.filter pyIsTxt).map (preloadKeyFromOut p)

/-- From the selector: `sorted([p for p in input_path.iterdir() if p.suffix.lower() == ".pdf"])` -/
def pymuPdfList (inNames : List String) : List String :=
  sortStrings (inNames.filter pyIsPdf)

/-- The unprocessed files, in the order the selector considers them. -/
def pymuUnprocessed (inNames : List String) (cache : List String) (p : Int) :
    List String :=
  (pymuPdfList inNames).filter
    (fun f => !(cache.contains (selectorKey (pyStem f) p)))

/-- From the selector: `files_to_process = unprocessed_files[:batch_size]` -/
def pymuScheduled (inNames : List String) (cache : List String) (p : Int)
    (B : Nat) : List String :=
  (pymuUnprocessed inNames cache p).take B

/-- Sum of one driver run: final state and per-task results. -/
structure RunOutcome where
  final : PState
  results : List (String × TaskResult)

/-- Directory lookup: the document behind a directory entry. -/
def lookupDoc (pdfs : List (String × Except String (List String)))
    (name : String) : Except String (List String) :=
  match pdfs.lookup name with
  | some d => d
  | none => .error "missing file"

/-- One full pymu driver run over an input directory `pdfs`
(entries with their documents) and an output directory `fs0`:
preload the cache, select the batch, process it. -/
def pymuRun (pdfs : List (String × Except String (List String)))
    (fs0 : List (String × String)) (p : Int) (B : Nat) : RunOutcome :=
  let cache0 := preloadCache p (fs0.map Prod.fst)
  let sel := pymuScheduled (pdfs.map Prod.fst) cache0 p B
  let st0 : PState := { cache := cache0, outputs := fs0 }
  let r := runTasks p st0 (sel.map (fun n => (n, lookupDoc pdfs n)))
  { final := r.1, results := r.2 }

/-- The state trace of one full pymu driver run. -/
def pymuRunStates (pdfs : List (String × Except String (List String)))
    (fs0 : List (String × String)) (p : Int) (B : Nat) : List PState :=
  let cache0 := preloadCache p (fs0.map Prod.fst)
  let sel := pymuScheduled (pdfs.map Prod.fst) cache0 p B
  runStates p { cache := cache0, outputs := fs0 }
    (sel.map (fun n => (n, lookupDoc pdfs n)))

/-! Part: From-list fast-extraction utility,
`src/pymu/utils/01_pymu_pdf_to_text_from_list.py` -/

/-- The from-list utility computes `pages = min(pages_to_extract, total_pages)`
with no negative-value guard; `range` of a negative number is empty. -/
def flExtractCount (p : Int) (total : Nat) : Nat := (min p (total : Int)).toNat

/-- Blocks extracted by the from-list utility. -/
def flExtractedBlocks (doc : List String) (p : Int) : List String :=
  pageBlocks doc (flExtractCount p doc.length)

/-- Output file content written by the from-list utility. -/
def flExtractedText (doc : List String) (p : Int) : String :=
  String.intercalate "\n" (flExtractedBlocks doc p)

/-- The from-list worker key: `f"{pdf_path.stem}_pages{pages_to_extract}"`
(no "all" label in this utility). -/
def flKey (stem : String) (p : Int) : String := stem ++ "_pages" ++ toString p

/-- The from-list worker `process_pdf`. -/
def flProcessPdf (p : Int) (st : PState) (pdfName : String)
    (doc : Except String (List String)) : PState × TaskResult :=
  let key := flKey (pyStem pdfName) p
  if key ∈ st.cache then (st, .skippedCache)
  else if (key ++ ".txt") ∈ st.outputs.map Prod.fst then
    ({ st with cache := key :: st.cache }, .skippedExists)
  else
    match doc with
    | .error _ => (st, .errored)
    | .ok pages =>
        ({ cache := key :: st.cache,
           outputs := (key ++ ".txt", flExtractedText pages p) :: st.outputs },
         .converted)

/-! Part: Structure-aware (docling) backend, `src/docling/01_docling_pdf_to_md.py` -/

/-- Python `os.path.join` for the directory/file shapes used here. -/
def pyJoin (dir f : String) : String := dir ++ "/" ++ f

/-- From docling: `get_processed_files(output_dir)` — base names of the `.md` files
(case-insensitive extension match) in the output directory. -/
def get_processed_files (outNames : List String) : List String :=
  (outNames.filter (fun f => lowerEndsWith f ".md")).map (fun f => (splitext f).1)

/-- From docling: `[f for f in os.listdir(input_dir) if f.lower().endswith(".pdf")]` —
note: `os.listdir` order, not sorted. -/
def doclingPdfList (inNames : List String) : List String :=
  inNames.filter (fun f => lowerEndsWith f ".pdf")

/-- From docling: `files_to_process` — inputs whose base name is not yet processed. -/
def doclingUnprocessed (inNames outNames : List String) : List String :=
  (doclingPdfList inNames).filter
    (fun f => !((get_processed_files outNames).contains (splitext f).1))

/-- From docling: `files_to_process[:total_to_process]` with
`total_to_process = min(len(files_to_process), batch_size)`. -/
def doclingTasks (inNames outNames : List String) (B : Nat) : List String :=
  (doclingUnprocessed inNames outNames).take
    (min (doclingUnprocessed inNames outNames).length B)

/-- Outcome status of one docling task. -/
inductive Status
  | success
  | error
deriving DecidableEq

/-- From docling: `process_file(task)` converts one PDF, writing Markdown on success;
an exception from the backend is caught and returned as an error record
carrying the original input filename. `convert` is the backend call
(`converter.convert` + `export_to_markdown`), which may raise. -/
def process_file (convert : String → Except String String)
    (task : String × String × String) : String × Status × String :=
  let idir := task.1
  let odir := task.2.1
  let fname := task.2.2
  match convert (pyJoin idir fname) with
  | .ok _ => (fname, .success, pyJoin odir ((splitext fname).1 ++ ".md"))
  | .error e => (fname, .error, e)

/-- The task tuples built by docling `main`. -/
def doclingTaskTuples (idir odir : String) (files : List String) :
    List (String × String × String) :=
  files.map (fun f => (idir, odir, f))

/-- From docling: `results = pool.map(process_file, tasks)` — one Outcome Record per task,
in dispatch order. -/
def doclingResults (convert : String → Except String String)
    (idir odir : String) (files : List String) :
    List (String × Status × String) :=
  (doclingTaskTuples idir odir files).map (process_file convert)

/-- The Markdown files written by a docling run (successful tasks). -/
def doclingWritten (convert : String → Except String String)
    (idir : String) (files : List String) : List String :=
  (files.filter (fun f => (convert (pyJoin idir f)).isOk)).map
    (fun f => (splitext f).1 ++ ".md")

/-! Part: Formatting-preserving (marker) wrapper,
`src/marker/01_marker_pdf_to_md_wrapper.py` -/

/-- The selection loop of marker `main`: walk the sorted PDF list, append
each not-yet-converted file, and break as soon as the batch has reached
`batch_size` (the length check runs only after an append). -/
def markerLoop (unproc : String → Bool) (B : Nat) (acc : List String) :
    List String → List String
  | [] => acc
  | f :: rest =>
      if unproc f then
        if B ≤ (acc ++ [f]).length then acc ++ [f]
        else markerLoop unproc B (acc ++ [f]) rest
      else markerLoop unproc B acc rest

/-- A marker input is unprocessed when
`os.path.join(output_dir, splitext(base)[0] + ".md")` does not exist. -/
def markerUnproc (outNames : List String) (f : String) : Bool :=
  !(outNames.contains ((splitext f).1 ++ ".md"))

/-- From marker: `sorted(glob.glob(os.path.join(input_dir, "*.pdf")))` -/
def markerPdfList (inNames : List String) : List String :=
  sortStrings (inNames.filter globPdf)

/-- The batch collected by marker `main`. -/
def markerBatchFiles (inNames outNames : List String) (B : Nat) :
    List String :=
  markerLoop (markerUnproc outNames) B [] (markerPdfList inNames)

/-- The unprocessed marker inputs (no batch truncation). -/
def markerUnprocessed (inNames outNames : List String) : List String :=
  (markerPdfList inNames).filter (markerUnproc outNames)

/-- Observable effects of marker `main`, in program order. -/
inductive MStep
  | makeTmpDir
  | link (f : String)
  | runCmd
  | removeTmpDir
  | printNoNew
  | printComplete
deriving DecidableEq

/-- Effect trace of marker `main`: empty batch returns early; otherwise
the temp dir is created, links made, the external command run
(`subprocess.run` — `cmdExit` is the exit status of the command, which the
code never inspects; `cmdRaises` models the invocation itself raising,
e.g. the executable being missing), and only when the call returns does
`shutil.rmtree` run: there is no try/finally, so a raise propagates and
skips the cleanup. -/
def markerMainTrace (inNames outNames : List String) (B : Nat)
    (cmdExit : Int) (cmdRaises : Bool) : List MStep :=
  let batch := markerBatchFiles inNames outNames B
  if batch.isEmpty then [.printNoNew]
  else
    [.makeTmpDir] ++ batch.map MStep.link ++ [.runCmd] ++
      (if cmdRaises then [] else [.removeTmpDir, .printComplete])

/-! Part: Unified entry point, `src/pdf_to_markdown.py` -/

inductive Converter
  | docling
  | marker
  | pymu
deriving DecidableEq

/-- docling `main` when the input directory is missing: print the error
and return before scheduling anything; otherwise schedule the batch.
Returns (scheduled tasks, reported setup-error message). -/
def doclingMainSchedule (inputExists : Bool) (inNames outNames : List String)
    (B : Nat) : List String × Option String :=
  if !inputExists then ([], some "Input directory does not exist.")
  else (doclingTasks inNames outNames B, none)

/-- The unified `main`: make the output dir, check the selected backend
dependency (return 1 on failure), then run the selected converter and
return 0.  The value is `.error` when the run dies on an uncaught
exception (pymu `iterdir` on a missing input directory).  The payload is
(exit code, scheduled tasks, reported setup-error message). -/
def uniMain (conv : Converter) (depsOk inputExists : Bool)
    (inNames outNames : List String) (B : Nat) (p : Int) :
    Except String (Nat × List String × Option String) :=
  if !depsOk then .ok (1, [], none)
  else
    match conv with
    | .docling =>
        let r := doclingMainSchedule inputExists inNames outNames B
        .ok (0, r.1, r.2)
    | .marker =>
        -- glob on a missing directory yields [] and the run ends normally
        .ok (0, markerBatchFiles (if inputExists then inNames else []) outNames B,
             none)
    | .pymu =>
        if !inputExists then .error "FileNotFoundError"
        else
          .ok (0, pymuScheduled inNames (preloadCache p outNames) p B, none)

/-- The spec-side Work Selector: the first `B` elements of the
alphabetically sorted list of unprocessed input PDFs (pymu keying). -/
def specSortedUnprocessedPymu (inNames cache : List String) (p : Int) :
    List String :=
  sortStrings ((inNames.filter pyIsPdf).filter
    (fun f => !(cache.contains (selectorKey (pyStem f) p))))

/-- The processed-set invariant: every key in the cache has a
corresponding output artifact — either the file `key ++ ".txt"` the
worker checked or wrote, or the scanned output file the preload derived
the key from. -/
def CacheInv (p : Int) (st : PState) : Prop :=
  ∀ k ∈ st.cache,
    (k ++ ".txt") ∈ st.outputs.map Prod.fst ∨
    ∃ f ∈ st.outputs.map Prod.fst, preloadKeyFromOut p f = k

/-! Part: Helper lemmas -/

theorem length_pageBlocks (doc : List String) (n : Nat) :
    (pageBlocks doc n).length = min n doc.length := by
  simp [pageBlocks]

theorem getElem_pageBlocks (doc : List String) (n i : Nat)
    (h : i < (pageBlocks doc n).length) (hd : i < doc.length) :
    (pageBlocks doc n).get ⟨i, h⟩ =
      "Page " ++ toString (i + 1) ++ ":\n" ++ doc.get ⟨i, hd⟩ ++ "\n" := by
  simp [pageBlocks, pageBlock, List.get_eq_getElem]

theorem sortStrings_singleton (s : String) : sortStrings [s] = [s] := by
  simpa [sortStrings] using
    List.mergeSort_eq_self (List.sorted_singleton (r := (· ≤ ·)) s)

theorem intercalate_nil_str : "\n".intercalate ([] : List String) = "" := rfl

/-! Part: Claims -/

/-- C4, counterexample: requesting `pages = 2` on a one-page document
yields a single page block, not two. -/
theorem c4_counterexample :
    extractedBlocks ["only page"] 2 = ["Page 1:\nonly page\n"] ∧
    (extractedBlocks ["only page"] 2).length ≠ 2 := by
  decide

/-- C4, amended: `pages = -1` on a 5-page document yields exactly 5 blocks
labeled "Page 1:" through "Page 5:"; `pages = 2` yields
`min 2 (page count)` blocks — exactly 2 only for documents with at least
2 pages. -/
theorem c4_amended :
    (∀ doc : List String, doc.length = 5 →
      (extractedBlocks doc (-1)).length = 5 ∧
      ∀ i : Nat, ∀ h : i < (extractedBlocks doc (-1)).length,
        ∀ hd : i < doc.length,
        (extractedBlocks doc (-1)).get ⟨i, h⟩ =
          "Page " ++ toString (i + 1) ++ ":\n" ++ doc.get ⟨i, hd⟩ ++ "\n") ∧
    (∀ doc : List String, (extractedBlocks doc 2).length = min 2 doc.length) ∧
    (∀ doc : List String, 2 ≤ doc.length →
      (extractedBlocks doc 2).length = 2) := by
  refine ⟨?_, ?_, ?_⟩
  · intro doc h5
    refine ⟨?_, ?_⟩
    · simp [extractedBlocks, length_pageBlocks, extractCount, h5]
    · intro i h hd
      exact getElem_pageBlocks doc _ i h hd
  · intro doc
    simp [extractedBlocks, length_pageBlocks, extractCount]
  · intro doc h2
    simp [extractedBlocks, length_pageBlocks, extractCount]
    omega

/-- C4 witness. -/
theorem c4_witness :
    (extractedBlocks ["a", "b", "c", "d", "e"] (-1)).length = 5 ∧
    (extractedBlocks ["a", "b"] 2).length = 2 :=
  ⟨(c4_amended.1 ["a", "b", "c", "d", "e"] rfl).1,
   c4_amended.2.2 ["a", "b"] (by decide)⟩

/-- C5, counterexample: for `pages = -1` the fast-extraction worker writes
`<stem>_pagesall.txt`, not `<stem>_pages-1.txt`. -/
theorem c5_counterexample :
    outFileName "doc" (-1) = "doc_pagesall.txt" ∧
    outFileName "doc" (-1) ≠ "doc" ++ "_pages" ++ toString (-1 : Int) ++ ".txt" := by
  decide

/-- C5, amended: the fast-extraction worker writes its output to
`<stem>_pages<N>.txt` for a nonnegative pages argument N, and to
`<stem>_pagesall.txt` for a negative one; when both skip guards pass the
written file is exactly that name. -/
theorem c5_amended :
    (∀ stem : String, ∀ p : Int, 0 ≤ p →
      outFileName stem p = stem ++ "_pages" ++ toString p ++ ".txt") ∧
    (∀ stem : String, ∀ p : Int, p < 0 →
      outFileName stem p = stem ++ "_pagesall.txt") ∧
    (∀ (p : Int) (st : PState) (name : String) (pages : List String),
      workerKey (pyStem name) p ∉ st.cache →
      outFileName (pyStem name) p ∉ st.outputs.map Prod.fst →
      (processPdf p st name (.ok pages)).1.outputs =
        (outFileName (pyStem name) p, extractedText pages p) :: st.outputs ∧
      (processPdf p st name (.ok pages)).2 = .converted) := by
  refine ⟨?_, ?_, ?_⟩
  · intro stem p hp
    simp [outFileName, workerKey, pagesLabel, not_lt.mpr hp]
  · intro stem p hp
    apply String.ext
    simp [outFileName, workerKey, pagesLabel, hp, String.data_append]
  · intro p st name pages h1 h2
    simp [processPdf, h1, h2]

/-- C5 witness. -/
theorem c5_witness :
    outFileName "doc" 5 = "doc" ++ "_pages" ++ toString (5 : Int) ++ ".txt" ∧
    (processPdf 5 ⟨[], []⟩ "a.pdf" (.ok ["t"])).1.outputs =
      [(outFileName (pyStem "a.pdf") 5, extractedText ["t"] 5)] :=
  ⟨c5_amended.1 "doc" 5 (by decide),
   (c5_amended.2.2 5 ⟨[], []⟩ "a.pdf" ["t"] (by simp) (by simp)).1⟩

/-- C10: in the from-list utility, a negative pages argument makes
`min(pages_to_extract, total_pages)` negative, so zero page blocks are
extracted and the written file content is empty — unlike the main driver,
which extracts all pages for a negative argument. -/
theorem c10_confirmed :
    (∀ (doc : List String) (p : Int), p < 0 →
      flExtractedBlocks doc p = [] ∧ flExtractedText doc p = "") ∧
    (∀ (doc : List String) (p : Int), p < 0 →
      (extractedBlocks doc p).length = doc.length) ∧
    (∀ (p : Int) (st : PState) (name : String) (pages : List String),
      p < 0 →
      flKey (pyStem name) p ∉ st.cache →
      (flKey (pyStem name) p ++ ".txt") ∉ st.outputs.map Prod.fst →
      (flProcessPdf p st name (.ok pages)).1.outputs =
        (flKey (pyStem name) p ++ ".txt", "") :: st.outputs) := by
  have hcount : ∀ (p : Int) (t : Nat), p < 0 → flExtractCount p t = 0 := by
    intro p t hp
    have : min p (t : Int) = p := min_eq_left (by omega)
    simp [flExtractCount, this, Int.toNat_of_nonpos (le_of_lt hp)]
  have hblocks : ∀ (doc : List String) (p : Int), p < 0 →
      flExtractedBlocks doc p = [] := by
    intro doc p hp
    simp [flExtractedBlocks, hcount p _ hp, pageBlocks]
  refine ⟨?_, ?_, ?_⟩
  · intro doc p hp
    exact ⟨hblocks doc p hp, by simp [flExtractedText, hblocks doc p hp, intercalate_nil_str]⟩
  · intro doc p hp
    simp [extractedBlocks, length_pageBlocks, extractCount, hp]
  · intro p st name pages hp h1 h2
    simp [flProcessPdf, h1, h2, flExtractedText, hblocks pages p hp, intercalate_nil_str]

/-- C10 witness. -/
theorem c10_witness :
    flExtractedBlocks ["x"] (-1) = [] ∧
    (flProcessPdf (-1) ⟨[], []⟩ "a.pdf" (.ok ["x"])).1.outputs =
      [(flKey (pyStem "a.pdf") (-1) ++ ".txt", "")] :=
  ⟨(c10_confirmed.1 ["x"] (-1) (by decide)).1,
   c10_confirmed.2.2 (-1) ⟨[], []⟩ "a.pdf" ["x"] (by decide) (by simp) (by simp)⟩

theorem markerBatch_single : markerBatchFiles ["a.pdf"] [] 1 = ["a.pdf"] := by
  unfold markerBatchFiles markerPdfList
  rw [show List.filter globPdf ["a.pdf"] = ["a.pdf"] from by decide,
    sortStrings_singleton]
  decide

/-- C7, counterexample: when invoking the external command raises (e.g.
the executable is missing), the exception propagates and the temporary
symlink directory is never removed, even though the batch was non-empty
and the directory was created. -/
theorem c7_counterexample :
    markerBatchFiles ["a.pdf"] [] 1 = ["a.pdf"] ∧
    MStep.makeTmpDir ∈ markerMainTrace ["a.pdf"] [] 1 0 true ∧
    MStep.removeTmpDir ∉ markerMainTrace ["a.pdf"] [] 1 0 true := by
  refine ⟨markerBatch_single, ?_, ?_⟩ <;>
    · unfold markerMainTrace
      rw [markerBatch_single]
      decide

/-- C7, amended: for a non-empty batch the temporary symlink directory is
removed right after the external command returns, whatever its exit
status (which the wrapper never inspects); but when invoking the command
raises, the exception propagates and the directory is not removed. -/
theorem c7_amended :
    (∀ (inNames outNames : List String) (B : Nat) (e1 e2 : Int) (r : Bool),
      markerMainTrace inNames outNames B e1 r =
        markerMainTrace inNames outNames B e2 r) ∧
    (∀ (inNames outNames : List String) (B : Nat) (e : Int),
      markerBatchFiles inNames outNames B ≠ [] →
      markerMainTrace inNames outNames B e false =
        [MStep.makeTmpDir] ++
          (markerBatchFiles inNames outNames B).map MStep.link ++
          [MStep.runCmd, MStep.removeTmpDir, MStep.printComplete]) ∧
    (∀ (inNames outNames : List String) (B : Nat) (e : Int),
      markerBatchFiles inNames outNames B ≠ [] →
      MStep.removeTmpDir ∉ markerMainTrace inNames outNames B e true) := by
  refine ⟨?_, ?_, ?_⟩
  · intro _ _ _ _ _ _
    rfl
  · intro inNames outNames B e hne
    simp only [markerMainTrace, List.isEmpty_eq_true]
    rw [if_neg hne]
    simp
  · intro inNames outNames B e hne
    simp only [markerMainTrace, List.isEmpty_eq_true]
    rw [if_neg hne]
    simp

/-- C7 witness. -/
theorem c7_witness :
    markerMainTrace ["a.pdf"] [] 1 7 false =
      [MStep.makeTmpDir] ++ (markerBatchFiles ["a.pdf"] [] 1).map MStep.link ++
        [MStep.runCmd, MStep.removeTmpDir, MStep.printComplete] :=
  c7_amended.2.1 ["a.pdf"] [] 1 7 (by rw [markerBatch_single]; decide)

theorem filter_sortStrings (q : String → Bool) (l : List String) :
    (sortStrings l).filter q = sortStrings (l.filter q) := by
  apply List.eq_of_perm_of_sorted (r := (· ≤ · : String → String → Prop))
  · exact ((List.mergeSort_perm l _).filter q).trans
      (List.mergeSort_perm (l.filter q) _).symm
  · exact (List.sorted_mergeSort' l).filter q
  · exact List.sorted_mergeSort' (l.filter q)

theorem sortStrings_pair : sortStrings ["b.pdf", "a.pdf"] = ["a.pdf", "b.pdf"] := by
  apply List.eq_of_perm_of_sorted (r := (· ≤ · : String → String → Prop))
  · exact (List.mergeSort_perm _ _).trans (List.Perm.swap "a.pdf" "b.pdf" [])
  · exact List.sorted_mergeSort' _
  · have hab : ("a.pdf" : String) ≤ "b.pdf" :=
      String.le_iff_toList_le.mpr (by decide)
    exact List.sorted_cons.mpr ⟨by simpa using hab, List.sorted_singleton _⟩

theorem markerPdfList_single : markerPdfList ["a.pdf"] = ["a.pdf"] := by
  unfold markerPdfList
  rw [show List.filter globPdf ["a.pdf"] = ["a.pdf"] from by decide,
    sortStrings_singleton]

theorem pymuPdfList_pair :
    pymuPdfList ["b.pdf", "a.pdf"] = ["a.pdf", "b.pdf"] := by
  unfold pymuPdfList
  rw [show List.filter pyIsPdf ["b.pdf", "a.pdf"] = ["b.pdf", "a.pdf"] from by
    decide, sortStrings_pair]

theorem markerLoop_eq_take (unproc : String → Bool) (B : Nat)
    (l : List String) (acc : List String) (hacc : acc.length < B) :
    markerLoop unproc B acc l = acc ++ (l.filter unproc).take (B - acc.length) := by
  induction l generalizing acc with
  | nil => simp [markerLoop]
  | cons f rest ih =>
      rw [markerLoop]
      by_cases hu : unproc f
      · rw [if_pos hu]
        by_cases hbreak : B ≤ (acc ++ [f]).length
        · rw [if_pos hbreak]
          have hB1 : B - acc.length = 1 := by
            simp only [List.length_append, List.length_singleton] at hbreak
            omega
          simp [List.filter_cons, hu, hB1]
        · rw [if_neg hbreak]
          rw [ih (acc ++ [f]) (by
            simp only [List.length_append, List.length_singleton] at hbreak ⊢
            omega)]
          have h1 : B - acc.length = (B - (acc ++ [f]).length) + 1 := by
            simp only [List.length_append, List.length_singleton] at hbreak ⊢
            omega
          simp [List.filter_cons, hu, h1, List.take_succ_cons]
      · rw [if_neg hu, ih acc hacc]
        simp [List.filter_cons, hu]

theorem markerBatchFiles_eq_take (inNames outNames : List String) (B : Nat)
    (hB : 1 ≤ B) :
    markerBatchFiles inNames outNames B =
      (markerUnprocessed inNames outNames).take B := by
  rw [markerBatchFiles, markerLoop_eq_take _ _ _ [] (by simpa using hB),
    markerUnprocessed]
  simp

/-- C2, counterexample: the docling driver does not sort its directory
listing, so with listing order `["b.pdf", "a.pdf"]` and `B = 1` it
schedules `b.pdf`, not the first element `a.pdf` of the sorted
unprocessed list; and the marker wrapper with `B = 0 < U = 1` schedules
one task, not zero, because its length check runs only after an append. -/
theorem c2_counterexample :
    doclingUnprocessed ["b.pdf", "a.pdf"] [] = ["b.pdf", "a.pdf"] ∧
    doclingTasks ["b.pdf", "a.pdf"] [] 1 = ["b.pdf"] ∧
    (sortStrings (doclingUnprocessed ["b.pdf", "a.pdf"] [])).take 1 =
      ["a.pdf"] ∧
    doclingTasks ["b.pdf", "a.pdf"] [] 1 ≠
      (sortStrings (doclingUnprocessed ["b.pdf", "a.pdf"] [])).take 1 ∧
    markerUnprocessed ["a.pdf"] [] = ["a.pdf"] ∧
    markerBatchFiles ["a.pdf"] [] 0 = ["a.pdf"] ∧
    (markerBatchFiles ["a.pdf"] [] 0).length ≠ 0 := by
  have hd : doclingUnprocessed ["b.pdf", "a.pdf"] [] = ["b.pdf", "a.pdf"] := by
    decide
  have hmu : markerUnprocessed ["a.pdf"] [] = ["a.pdf"] := by
    unfold markerUnprocessed
    rw [markerPdfList_single]
    decide
  have hmb : markerBatchFiles ["a.pdf"] [] 0 = ["a.pdf"] := by
    unfold markerBatchFiles
    rw [markerPdfList_single]
    decide
  refine ⟨hd, by decide, ?_, ?_, hmu, hmb, by rw [hmb]; decide⟩
  · rw [hd, sortStrings_pair]
    decide
  · rw [hd, sortStrings_pair]
    decide

/-- C2, amended: with `U` unprocessed files and `U > B`, the pymu driver
schedules exactly `B` tasks, the first `B` of the alphabetically sorted
unprocessed list; so does the marker wrapper provided `B ≥ 1` (with
`B = 0` it schedules one file); the docling driver schedules exactly `B`
tasks, but they are the first `B` of the unprocessed files in raw
directory-listing order, which is not sorted. -/
theorem c2_amended :
    (∀ (inNames cache : List String) (p : Int) (B : Nat),
      pymuScheduled inNames cache p B =
        (specSortedUnprocessedPymu inNames cache p).take B ∧
      (B < (pymuUnprocessed inNames cache p).length →
        (pymuScheduled inNames cache p B).length = B)) ∧
    (∀ (inNames outNames : List String) (B : Nat), 1 ≤ B →
      markerBatchFiles inNames outNames B =
        (markerUnprocessed inNames outNames).take B ∧
      (B < (markerUnprocessed inNames outNames).length →
        (markerBatchFiles inNames outNames B).length = B)) ∧
    (∀ (inNames outNames : List String) (B : Nat),
      doclingTasks inNames outNames B =
        (doclingUnprocessed inNames outNames).take B ∧
      (B < (doclingUnprocessed inNames outNames).length →
        (doclingTasks inNames outNames B).length = B)) := by
  have hdocl : ∀ (inNames outNames : List String) (B : Nat),
      doclingTasks inNames outNames B =
        (doclingUnprocessed inNames outNames).take B := by
    intro inNames outNames B
    rw [doclingTasks, min_comm, ← List.take_take, List.take_length]
  refine ⟨?_, ?_, ?_⟩
  · intro inNames cache p B
    constructor
    · rw [pymuScheduled, pymuUnprocessed, pymuPdfList, filter_sortStrings,
        specSortedUnprocessedPymu]
    · intro hU
      rw [pymuScheduled, List.length_take]
      omega
  · intro inNames outNames B hB
    refine ⟨markerBatchFiles_eq_take inNames outNames B hB, ?_⟩
    intro hU
    rw [markerBatchFiles_eq_take inNames outNames B hB, List.length_take]
    omega
  · intro inNames outNames B
    refine ⟨hdocl inNames outNames B, ?_⟩
    intro hU
    rw [hdocl inNames outNames B, List.length_take]
    omega

/-- C2 witness. -/
theorem c2_witness :
    (pymuScheduled ["b.pdf", "a.pdf"] [] 2 1).length = 1 ∧
    markerBatchFiles ["a.pdf"] [] 1 = (markerUnprocessed ["a.pdf"] []).take 1 ∧
    (doclingTasks ["b.pdf", "a.pdf"] [] 1).length = 1 :=
  ⟨(c2_amended.1 ["b.pdf", "a.pdf"] [] 2 1).2 (by
      unfold pymuUnprocessed
      rw [pymuPdfList_pair]
      decide),
   (c2_amended.2.1 ["a.pdf"] [] 1 (by decide)).1,
   (c2_amended.2.2 ["b.pdf", "a.pdf"] [] 1).2 (by decide)⟩

theorem pySplit_append_pdf (f : String) (t : List Char)
    (h : f.toList = t ++ String.toList ".pdf") (ht : t ≠ []) :
    pySplit f = (t.asString, ".pdf") := by
  have hlen : 0 < t.length := List.length_pos.mpr ht
  have hrev : f.toList.reverse = ['f', 'd', 'p', '.'] ++ t.reverse := by
    rw [h, List.reverse_append]
    rfl
  have hidx : f.toList.reverse.indexOf '.' = 3 := by
    rw [hrev, show (['f', 'd', 'p', '.'] ++ t.reverse : List Char) =
      'f' :: 'd' :: 'p' :: '.' :: t.reverse from rfl]
    rw [List.indexOf_cons_ne _ (by decide), List.indexOf_cons_ne _ (by decide),
      List.indexOf_cons_ne _ (by decide), List.indexOf_cons_self]
  have hdrop : (['f', 'd', 'p', '.'] ++ t.reverse : List Char).drop 4 =
      t.reverse := by
    rw [show (4 : Nat) = (['f', 'd', 'p', '.'] : List Char).length from rfl,
      List.drop_left]
  have htake : (['f', 'd', 'p', '.'] ++ t.reverse : List Char).take 4 =
      ['f', 'd', 'p', '.'] := by
    rw [show (4 : Nat) = (['f', 'd', 'p', '.'] : List Char).length from rfl,
      List.take_left]
  simp only [pySplit]
  rw [hidx, hrev, h]
  rw [if_pos ⟨by decide, by simpa [List.length_append] using hlen⟩]
  rw [show (3 + 1 : Nat) = 4 from rfl, hdrop, htake, List.reverse_reverse]
  rfl

theorem lowerEndsWith_of_pyIsPdf (f : String) (h : pyIsPdf f = true) :
    lowerEndsWith f ".pdf" = true := by
  rw [pyIsPdf, beq_iff_eq] at h
  simp only [pySuffix, pySplit] at h
  rw [apply_ite Prod.snd] at h
  split at h
  · simp only [lowerEndsWith, List.isSuffixOf_iff_suffix]
    have h2 : (f.toList.reverse.take
        (f.toList.reverse.indexOf '.' + 1)).reverse.map Char.toLower =
        String.toList ".pdf" := congrArg String.toList h
    have hdecomp : f.toList =
        (f.toList.reverse.drop (f.toList.reverse.indexOf '.' + 1)).reverse ++
          (f.toList.reverse.take (f.toList.reverse.indexOf '.' + 1)).reverse := by
      rw [← List.reverse_append, List.take_append_drop, List.reverse_reverse]
    rw [hdecomp, List.map_append, h2]
    exact List.suffix_append _ _
  · have h3 : strLower "" = ".pdf" := h
    exact absurd h3 (by decide)

theorem pyIsPdf_of_globPdf (f : String) (h : globPdf f = true) :
    pyIsPdf f = true := by
  rw [globPdf, Bool.and_eq_true] at h
  obtain ⟨hsuf, hhead⟩ := h
  rw [List.isSuffixOf_iff_suffix] at hsuf
  obtain ⟨t, ht⟩ := hsuf
  have htne : t ≠ [] := by
    intro h0
    subst h0
    simp only [List.nil_append] at ht
    rw [← ht] at hhead
    simp at hhead
  rw [pyIsPdf, pySuffix, pySplit_append_pdf f t ht.symm htne]
  show (strLower ".pdf" == ".pdf") = true
  decide

/-- C9, counterexample: a file named `A.PDF` has extension `.pdf` under
case-insensitive matching and is listed by the pymu and docling scanners,
but the marker wrapper glob `*.pdf` is case-sensitive and does not
list it. -/
theorem c9_counterexample :
    pyIsPdf "A.PDF" = true ∧ lowerEndsWith "A.PDF" ".pdf" = true ∧
    globPdf "A.PDF" = false ∧ markerPdfList ["A.PDF"] = [] := by
  refine ⟨by decide, by decide, by decide, ?_⟩
  rw [markerPdfList, show List.filter globPdf ["A.PDF"] = [] from by decide,
    sortStrings]
  simp

/-- C9, amended: the pymu and docling scanners select inputs by
case-insensitive extension match on `.pdf` — every directory entry whose
extension equals `.pdf` under any letter casing is listed; the marker
wrapper instead lists only files matching the case-sensitive glob
`*.pdf`, each of which also matches case-insensitively (a strict
subset: uppercase variants are dropped). -/
theorem c9_amended :
    (∀ (f : String) (inNames : List String), pyIsPdf f = true →
      f ∈ inNames → f ∈ pymuPdfList inNames ∧ f ∈ doclingPdfList inNames) ∧
    (∀ f : String, globPdf f = true → pyIsPdf f = true) := by
  constructor
  · intro f inNames hf hmem
    constructor
    · rw [pymuPdfList, sortStrings]
      exact (List.mergeSort_perm _ _).mem_iff.mpr
        (List.mem_filter.mpr ⟨hmem, hf⟩)
    · exact List.mem_filter.mpr ⟨hmem, lowerEndsWith_of_pyIsPdf f hf⟩
  · exact pyIsPdf_of_globPdf

/-- C9 witness. -/
theorem c9_witness :
    "A.pdf" ∈ pymuPdfList ["A.pdf"] ∧ pyIsPdf "b.pdf" = true :=
  ⟨(c9_amended.1 "A.pdf" ["A.pdf"] (by decide) (by simp)).1,
   c9_amended.2 "b.pdf" (by decide)⟩

/-- C3: a task whose backend call raises is caught at the task boundary:
docling returns an Outcome Record (filename, error, detail) for it, every
task of the batch still yields its own record (so subsequent tasks run),
and the pymu worker catches the raise, leaves the state unchanged and
moves on, with every scheduled task producing a result. -/
theorem c3_confirmed :
    (∀ (convert : String → Except String String) (idir odir : String)
        (files : List String) (i : Nat) (h : i < files.length) (e : String),
      convert (pyJoin idir (files.get ⟨i, h⟩)) = .error e →
      (doclingResults convert idir odir files).length = files.length ∧
      (doclingResults convert idir odir files).get? i =
        some (files.get ⟨i, h⟩, Status.error, e)) ∧
    (∀ (p : Int) (st : PState)
        (tasks : List (String × Except String (List String))),
      (runTasks p st tasks).2.length = tasks.length) ∧
    (∀ (p : Int) (st : PState) (name e : String),
      workerKey (pyStem name) p ∉ st.cache →
      outFileName (pyStem name) p ∉ st.outputs.map Prod.fst →
      processPdf p st name (.error e) = (st, .errored)) := by
  refine ⟨?_, ?_, ?_⟩
  · intro convert idir odir files i h e hconv
    constructor
    · simp [doclingResults, doclingTaskTuples]
    · simp only [doclingResults, doclingTaskTuples, List.map_map,
        List.get?_eq_getElem?, List.getElem?_map,
        List.getElem?_eq_getElem h, Option.map_some]
      have hconv2 : convert (pyJoin idir files[i]) = Except.error e := hconv
      simp [Function.comp, process_file, List.get_eq_getElem, hconv2]
  · intro p st tasks
    induction tasks generalizing st with
    | nil => simp [runTasks]
    | cons td rest ih => simp [runTasks, ih]
  · intro p st name e h1 h2
    simp [processPdf, h1, h2]

/-- C3 witness. -/
theorem c3_witness :
    (doclingResults (fun _ => Except.error "boom") "in" "out" ["a.pdf"]).get? 0 =
      some ("a.pdf", Status.error, "boom") ∧
    processPdf 1 ⟨[], []⟩ "a.pdf" (.error "boom") = (⟨[], []⟩, .errored) :=
  ⟨(c3_confirmed.1 (fun _ => Except.error "boom") "in" "out" ["a.pdf"] 0
      (by decide) "boom" rfl).2,
   c3_confirmed.2.2 1 ⟨[], []⟩ "a.pdf" "boom" (by simp) (by simp)⟩

/-- C8: the unified entry point returns exit code 1 exactly when the
selected backend dependency check fails (before any scheduling); every
normal completion — the zero-unprocessed case included — returns 0; and
for the docling backend a missing input directory is reported and the
driver returns before scheduling any work. -/
theorem c8_confirmed :
    (∀ (conv : Converter) (inputExists : Bool)
        (inNames outNames : List String) (B : Nat) (p : Int),
      uniMain conv false inputExists inNames outNames B p = .ok (1, [], none)) ∧
    (∀ (conv : Converter) (inputExists : Bool)
        (inNames outNames : List String) (B : Nat) (p : Int)
        (r : Nat × List String × Option String),
      uniMain conv true inputExists inNames outNames B p = .ok r →
      r.1 = 0) ∧
    (∀ (inNames outNames : List String) (B : Nat) (p : Int),
      uniMain .docling true false inNames outNames B p =
        .ok (0, [], some "Input directory does not exist.")) := by
  refine ⟨?_, ?_, ?_⟩
  · intro conv inputExists inNames outNames B p
    rfl
  · intro conv inputExists inNames outNames B p r hr
    cases conv with
    | docling =>
        simp only [uniMain, Bool.not_true, Bool.false_eq_true, if_false,
          Except.ok.injEq] at hr
        rw [← hr]
    | marker =>
        simp only [uniMain, Bool.not_true, Bool.false_eq_true, if_false,
          Except.ok.injEq] at hr
        rw [← hr]
    | pymu =>
        by_cases hin : inputExists
        · simp only [uniMain, hin, Bool.not_true, Bool.false_eq_true, if_false,
            Except.ok.injEq] at hr
          rw [← hr]
        · simp only [uniMain, Bool.not_eq_true] at hr
          rw [Bool.not_eq_true] at hin
          simp [hin] at hr
  · intro inNames outNames B p
    rfl

/-- C8 witness. -/
theorem c8_witness :
    uniMain Converter.docling false true [] [] 5 1 = .ok (1, [], none) ∧
    uniMain Converter.docling true false ["x.pdf"] [] 5 1 =
      .ok (0, [], some "Input directory does not exist.") ∧
    ((0 : Nat), ([] : List String), (none : Option String)).1 = 0 :=
  ⟨c8_confirmed.1 Converter.docling true [] [] 5 1,
   c8_confirmed.2.2 ["x.pdf"] [] 5 1,
   c8_confirmed.2.1 Converter.docling true [] [] 0 1 (0, [], none) (by
     simp [uniMain, doclingMainSchedule, doclingTasks, doclingUnprocessed,
       doclingPdfList])⟩

theorem processPdf_preserves_inv (p : Int) (st : PState) (n : String)
    (d : Except String (List String)) (h : CacheInv p st) :
    CacheInv p (processPdf p st n d).1 := by
  by_cases h1 : workerKey (pyStem n) p ∈ st.cache
  · simpa [processPdf, h1] using h
  · by_cases h2 : outFileName (pyStem n) p ∈ st.outputs.map Prod.fst
    · simp only [processPdf, if_neg h1, if_pos h2]
      intro k hk
      rcases List.mem_cons.mp hk with rfl | hk2
      · exact Or.inl (by simpa [outFileName] using h2)
      · exact h k hk2
    · cases d with
      | error e => simpa [processPdf, h1, h2] using h
      | ok pages =>
          simp only [processPdf, if_neg h1, if_neg h2]
          intro k hk
          rcases List.mem_cons.mp hk with rfl | hk2
          · exact Or.inl (by simp [outFileName])
          · rcases h k hk2 with hin | ⟨f, hf, hf2⟩
            · exact Or.inl (by simp [hin])
            · exact Or.inr ⟨f, by simp [hf], hf2⟩

theorem runStates_inv (p : Int)
    (tasks : List (String × Except String (List String))) (st : PState)
    (h : CacheInv p st) : ∀ s ∈ runStates p st tasks, CacheInv p s := by
  induction tasks generalizing st with
  | nil =>
      intro s hs
      rw [runStates] at hs
      rcases List.mem_singleton.mp hs with rfl
      exact h
  | cons td rest ih =>
      intro s hs
      obtain ⟨name, doc⟩ := td
      rw [runStates] at hs
      rcases List.mem_cons.mp hs with rfl | hs2
      · exact h
      · exact ih _ (processPdf_preserves_inv p st name doc h) s hs2

/-- C6: at every point of a pymu run, every key in the Shared
Processed-Set has a corresponding output artifact: the preload derives
each key from an existing `.txt` file, the worker inserts a key only
after the output-file-exists check succeeds or right after writing the
output file, and output files are never removed during a run. -/
theorem c6_confirmed :
    ∀ (pdfs : List (String × Except String (List String)))
      (fs0 : List (String × String)) (p : Int) (B : Nat),
      ∀ st ∈ pymuRunStates pdfs fs0 p B, CacheInv p st := by
  intro pdfs fs0 p B st hst
  apply runStates_inv p _ _ _ st hst
  intro k hk
  rw [preloadCache] at hk
  obtain ⟨f, hf, hfk⟩ := List.mem_map.mp hk
  exact Or.inr ⟨f, List.mem_filter.mp hf |>.1, hfk⟩

/-- C6 witness. -/
theorem c6_witness : CacheInv 1 ⟨[], []⟩ :=
  c6_confirmed [] [] 1 0 ⟨[], []⟩ (by
    simp [pymuRunStates, runStates, pymuScheduled, pymuUnprocessed,
      pymuPdfList, preloadCache, sortStrings])

theorem toList_append_str (a b : String) :
    (a ++ b).toList = a.toList ++ b.toList :=
  String.data_append a b

theorem lowerEndsWith_append_md (b : String) :
    lowerEndsWith (b ++ ".md") ".md" = true := by
  simp only [lowerEndsWith, List.isSuffixOf_iff_suffix]
  rw [toList_append_str, List.map_append]
  rw [show List.map Char.toLower (String.toList ".md") = String.toList ".md"
    from by decide]
  exact List.suffix_append _ _

theorem any_ne_dot_of_lowerEndsWith_pdf (f : String)
    (h : lowerEndsWith f ".pdf" = true) :
    f.toList.any (fun c => c ≠ '.') = true := by
  rw [lowerEndsWith, List.isSuffixOf_iff_suffix] at h
  obtain ⟨t, ht⟩ := h
  have hrev : (f.toList.map Char.toLower).reverse =
      ['f', 'd', 'p', '.'] ++ t.reverse := by
    rw [← ht, List.reverse_append]
    rfl
  have hh : (f.toList.reverse.map Char.toLower).head? = some 'f' := by
    rw [List.map_reverse, hrev]
    rfl
  rw [List.head?_map] at hh
  cases hcl : f.toList.reverse.head? with
  | none => rw [hcl] at hh; simp at hh
  | some c =>
      rw [hcl] at hh
      have hcf : Char.toLower c = 'f' := by simpa using hh
      have hc : c ∈ f.toList := by
        cases hrl : f.toList.reverse with
        | nil => rw [hrl] at hcl; simp at hcl
        | cons a l2 =>
            rw [hrl] at hcl
            have ha : a = c := by simpa using hcl
            have : c ∈ f.toList.reverse := by
              rw [hrl, ha]
              exact List.mem_cons_self c l2
            exact List.mem_reverse.mp this
      rw [List.any_eq_true]
      refine ⟨c, hc, ?_⟩
      simp only [decide_eq_true_eq]
      intro hcd
      rw [hcd] at hcf
      exact absurd hcf (by decide)

theorem splitext_base_any (f : String) (h : lowerEndsWith f ".pdf" = true) :
    ((splitext f).1).toList.any (fun c => c ≠ '.') = true := by
  simp only [splitext]
  rw [apply_ite Prod.fst]
  split
  · next hcond =>
      have h2 := hcond.2
      show ((f.toList.reverse.drop (f.toList.reverse.indexOf '.' + 1)).reverse).any
        (fun c => c ≠ '.') = true
      rw [List.any_reverse]
      exact h2
  · exact any_ne_dot_of_lowerEndsWith_pdf f h

theorem splitext_append_md (b : String)
    (hb : b.toList.any (fun c => c ≠ '.') = true) :
    splitext (b ++ ".md") = (b, ".md") := by
  have hrev : (b ++ ".md").toList.reverse = ['d', 'm', '.'] ++ b.toList.reverse := by
    rw [toList_append_str, List.reverse_append]
    rfl
  have hidx : (b ++ ".md").toList.reverse.indexOf '.' = 2 := by
    rw [hrev, show (['d', 'm', '.'] ++ b.toList.reverse : List Char) =
      'd' :: 'm' :: '.' :: b.toList.reverse from rfl]
    rw [List.indexOf_cons_ne _ (by decide), List.indexOf_cons_ne _ (by decide),
      List.indexOf_cons_self]
  have hdrop : (['d', 'm', '.'] ++ b.toList.reverse : List Char).drop 3 =
      b.toList.reverse := by
    rw [show (3 : Nat) = (['d', 'm', '.'] : List Char).length from rfl,
      List.drop_left]
  have htake : (['d', 'm', '.'] ++ b.toList.reverse : List Char).take 3 =
      ['d', 'm', '.'] := by
    rw [show (3 : Nat) = (['d', 'm', '.'] : List Char).length from rfl,
      List.take_left]
  simp only [splitext]
  rw [hidx, hrev]
  rw [if_pos ⟨by
      rw [toList_append_str, List.length_append,
        show (String.toList ".md").length = 3 from rfl]
      omega,
    by
      rw [show (2 + 1 : Nat) = 3 from rfl, hdrop, List.any_reverse]
      exact hb⟩]
  rw [show (2 + 1 : Nat) = 3 from rfl, hdrop, htake, List.reverse_reverse]
  rw [String.asString_toList]
  rfl

theorem processPdf_outputs_mono (p : Int) (st : PState) (n : String)
    (d : Except String (List String)) (f : String)
    (hf : f ∈ st.outputs.map Prod.fst) :
    f ∈ (processPdf p st n d).1.outputs.map Prod.fst := by
  by_cases h1 : workerKey (pyStem n) p ∈ st.cache
  · simpa [processPdf, h1] using hf
  · by_cases h2 : outFileName (pyStem n) p ∈ st.outputs.map Prod.fst
    · simpa [processPdf, h1, h2] using hf
    · cases d with
      | error e => simpa [processPdf, h1, h2] using hf
      | ok pages =>
          simp only [processPdf, if_neg h1, if_neg h2]
          simp only [List.map_cons, List.mem_cons]
          exact Or.inr hf

theorem processPdf_no_convert (p : Int) (st : PState) (n : String)
    (d : Except String (List String))
    (h : outFileName (pyStem n) p ∈ st.outputs.map Prod.fst) :
    (processPdf p st n d).2 ≠ TaskResult.converted := by
  by_cases h1 : workerKey (pyStem n) p ∈ st.cache
  · simp [processPdf, h1]
  · simp [processPdf, h1, h]

theorem runTasks_no_convert (p : Int) (stem : String)
    (tasks : List (String × Except String (List String))) (st : PState)
    (h : outFileName stem p ∈ st.outputs.map Prod.fst) :
    ∀ pr ∈ (runTasks p st tasks).2, pyStem pr.1 = stem →
      pr.2 ≠ TaskResult.converted := by
  induction tasks generalizing st with
  | nil => simp [runTasks]
  | cons td rest ih =>
      obtain ⟨name, doc⟩ := td
      intro pr hpr hstem
      simp only [runTasks, List.mem_cons] at hpr
      rcases hpr with rfl | hmem
      · refine processPdf_no_convert p st name doc ?_
        have hs : pyStem name = stem := hstem
        rw [hs]
        exact h
      · exact ih ((processPdf p st name doc).1)
          (processPdf_outputs_mono p st name doc _ h) pr hmem hstem

/-- C1: re-running a driver over an unchanged input directory performs no
redundant conversion.  pymu: for every stem whose output file is present
after the first run, no task of the second run (which starts from the
output directory of the first run) converts it — it is either excluded by the
Work Selector or skipped by the shared-cache/output-file-exists guards.
docling: any input whose Markdown output exists is excluded by the Work
Selector and never scheduled. -/
theorem c1_confirmed :
    (∀ (pdfs : List (String × Except String (List String)))
        (fs0 : List (String × String)) (p : Int) (B : Nat) (stem : String),
      outFileName stem p ∈ (pymuRun pdfs fs0 p B).final.outputs.map Prod.fst →
      ∀ pr ∈ (pymuRun pdfs (pymuRun pdfs fs0 p B).final.outputs p B).results,
        pyStem pr.1 = stem → pr.2 ≠ TaskResult.converted) ∧
    (∀ (inNames outNames : List String) (B : Nat) (f : String),
      ((splitext f).1 ++ ".md") ∈ outNames →
      f ∉ doclingTasks inNames outNames B) := by
  constructor
  · intro pdfs fs0 p B stem hmem pr hpr hstem
    have key : ∀ (fs1 : List (String × String)),
        outFileName stem p ∈ fs1.map Prod.fst →
        ∀ pr2 ∈ (pymuRun pdfs fs1 p B).results,
          pyStem pr2.1 = stem → pr2.2 ≠ TaskResult.converted := by
      intro fs1 h1 pr2 hpr2 hstem2
      simp only [pymuRun] at hpr2
      exact runTasks_no_convert p stem _ _ h1 pr2 hpr2 hstem2
    exact key _ hmem pr hpr hstem
  · intro inNames outNames B f hout hf
    have hf2 : f ∈ doclingUnprocessed inNames outNames :=
      List.take_subset _ _ hf
    rw [doclingUnprocessed] at hf2
    obtain ⟨hfl, hq⟩ := List.mem_filter.mp hf2
    have hpdf : lowerEndsWith f ".pdf" = true := (List.mem_filter.mp hfl).2
    have hbase : ((splitext f).1).toList.any (fun c => c ≠ '.') = true :=
      splitext_base_any f hpdf
    have hmem : (splitext f).1 ∈ get_processed_files outNames := by
      rw [get_processed_files]
      apply List.mem_map.mpr
      refine ⟨(splitext f).1 ++ ".md",
        List.mem_filter.mpr ⟨hout, lowerEndsWith_append_md _⟩, ?_⟩
      rw [splitext_append_md _ hbase]
    simp [hmem] at hq

/-- C1 witness: on the second run the worker reaches `doc.pdf` (for
`pages = -1` the selector key misses the preloaded cache) but the
output-file-exists guard skips it, so it is not converted. -/
theorem c1_witness :
    ("doc.pdf", TaskResult.skippedExists).2 ≠ TaskResult.converted ∧
    "a.pdf" ∉ doclingTasks ["a.pdf"] ["a.md"] 10 := by
  constructor
  · have hsel : pymuScheduled ["doc.pdf"]
        (preloadCache (-1) ["doc_pagesall.txt"]) (-1) 1 = ["doc.pdf"] := by
      rw [pymuScheduled, pymuUnprocessed, pymuPdfList,
        show List.filter pyIsPdf ["doc.pdf"] = ["doc.pdf"] from by decide,
        sortStrings_singleton]
      decide
    have hfs1 : (pymuRun [("doc.pdf", Except.ok ["pg"])]
        [("doc_pagesall.txt", "x")] (-1) 1).final.outputs =
        [("doc_pagesall.txt", "x")] := by
      simp only [pymuRun, List.map_cons, List.map_nil]
      rw [hsel]
      decide
    refine c1_confirmed.1 [("doc.pdf", Except.ok ["pg"])]
      [("doc_pagesall.txt", "x")] (-1) 1 "doc" ?_
      ("doc.pdf", TaskResult.skippedExists) ?_ (by decide)
    · rw [hfs1]
      decide
    · rw [hfs1]
      simp only [pymuRun, List.map_cons, List.map_nil]
      rw [hsel]
      decide
  · exact c1_confirmed.2 ["a.pdf"] ["a.md"] 10 "a.pdf" (by decide)

end PdfToMd
